import Mathlib

/-!
Verification of the fdr feed reader core against its design document.

The Rust sources are embedded shallowly:
* `src/lib.rs` : `FeedItem`, `FeedItem::make`, `FeedItem::get_id`,
  `read_feed_items`, `date_diff`.
* `src/main.rs` : the `show_news` pipeline (load seen file, fetch sources,
  sort, novelty filter, append, save).

Machine integers (`i64` inside `chrono::TimeDelta`) are modelled as `Int`
with truncating division `Int.tdiv` and truncating remainder `Int.tmod`,
which is what Rust `/` and `%` compute on `i64`.  Timestamps
(`DateTime<FixedOffset>`) are modelled by their instant on the time line,
an `Int`, which is all the code compares and subtracts.  The two chrono
date parsers are external library code and enter the model as parameters
`p1 p2 : String → Except String Int`.  File and network I/O is pushed to
the boundary: the run function takes the loaded seen record and the fetch
results and returns the displayed items and the record that gets written.
-/

namespace Fdr

/-! ### chrono duration accessors (whole units, truncated toward zero) -/

/-- `TimeDelta::num_days`: whole days in the duration (`seconds / 86400`). -/
def num_days (delta : Int) : Int := delta.tdiv 86400

/-- `TimeDelta::num_weeks`: whole weeks, computed by chrono as `num_days() / 7`. -/
def num_weeks (delta : Int) : Int := (num_days delta).tdiv 7

/-- `TimeDelta::num_hours`: whole hours (`seconds / 3600`). -/
def num_hours (delta : Int) : Int := delta.tdiv 3600

/-- `TimeDelta::num_minutes`: whole minutes (`seconds / 60`). -/
def num_minutes (delta : Int) : Int := delta.tdiv 60

/-- `date_diff` from `src/lib.rs` lines 129-157: converts a time delta
(in seconds) to a human friendly string. -/
def date_diff (delta : Int) : String :=
  if num_days delta = 365 then "year ago"
  else if num_days delta > 365 then toString ((num_days delta).tmod 365) ++ " years ago"
  else if num_weeks delta = 4 then "month ago"
  else if num_weeks delta > 4 then toString ((num_days delta).tmod 30) ++ " months ago"
  else if num_weeks delta = 1 then "week ago"
  else if num_weeks delta > 1 then toString (num_weeks delta) ++ " weeks ago"
  else if num_days delta = 1 then "day ago"
  else if num_days delta > 1 then toString (num_days delta) ++ " days ago"
  else if num_hours delta = 1 then "hour ago"
  else if num_hours delta > 1 then toString (num_hours delta) ++ " hours ago"
  else if num_minutes delta = 1 then "minute ago"
  else if num_minutes delta > 1 then toString (num_minutes delta) ++ " minutes ago"
  else "just now"

/-- The 13-rule precedence table of the specification (section 4.1), for a
non-negative duration given in seconds, with floored unit counts
`days = s / 86400`, `weeks = s / 604800`, `hours = s / 3600`,
`minutes = s / 60`.  First match wins. -/
def dateDiffSpec (s : Nat) : String :=
  if s / 86400 = 365 then "year ago"
  else if s / 86400 > 365 then toString (s / 86400 % 365) ++ " years ago"
  else if s / 604800 = 4 then "month ago"
  else if s / 604800 > 4 then toString (s / 86400 % 30) ++ " months ago"
  else if s / 604800 = 1 then "week ago"
  else if s / 604800 > 1 then toString (s / 604800) ++ " weeks ago"
  else if s / 86400 = 1 then "day ago"
  else if s / 86400 > 1 then toString (s / 86400) ++ " days ago"
  else if s / 3600 = 1 then "hour ago"
  else if s / 3600 > 1 then toString (s / 3600) ++ " hours ago"
  else if s / 60 = 1 then "minute ago"
  else if s / 60 > 1 then toString (s / 60) ++ " minutes ago"
  else "just now"

/-- C4: for every non-negative duration, `date_diff` returns exactly the
string selected by the 13-rule precedence table with floored units, first
match winning; in particular 0 s gives "just now", 90 s gives
"minute ago", 3 days gives "3 days ago", 365 days gives "year ago" and
400 days gives "35 years ago" (the modulo quirk). -/
theorem c4_time_formatter_table :
    (∀ (s : Nat), date_diff ((s : Nat) : Int) = dateDiffSpec s) ∧
    date_diff 0 = "just now" ∧
    date_diff 90 = "minute ago" ∧
    date_diff (3 * 86400) = "3 days ago" ∧
    date_diff (365 * 86400) = "year ago" ∧
    date_diff (400 * 86400) = "35 years ago" := by
  refine ⟨fun s => ?_, by decide, by decide, by decide, by decide, by decide⟩
  have h1 : num_days ((s : Nat) : Int) = ((s / 86400 : Nat) : Int) := rfl
  have h2 : num_weeks ((s : Nat) : Int) = ((s / 86400 / 7 : Nat) : Int) := rfl
  have h3 : num_hours ((s : Nat) : Int) = ((s / 3600 : Nat) : Int) := rfl
  have h4 : num_minutes ((s : Nat) : Int) = ((s / 60 : Nat) : Int) := rfl
  have hw : s / 604800 = s / 86400 / 7 := by
    rw [Nat.div_div_eq_div_mul]
  have t1 : Int.tmod ((s / 86400 : Nat) : Int) 365 = ((s / 86400 % 365 : Nat) : Int) := rfl
  have t2 : Int.tmod ((s / 86400 : Nat) : Int) 30 = ((s / 86400 % 30 : Nat) : Int) := rfl
  have tofnat : ∀ (n : Nat), toString ((n : Nat) : Int) = toString n := fun _ => rfl
  have e1 : (((s / 86400 : Nat) : Int) = 365) ↔ (s / 86400 = 365) := by omega
  have e2 : (((s / 86400 : Nat) : Int) > 365) ↔ (s / 86400 > 365) := by omega
  have e3 : (((s / 86400 / 7 : Nat) : Int) = 4) ↔ (s / 86400 / 7 = 4) := by omega
  have e4 : (((s / 86400 / 7 : Nat) : Int) > 4) ↔ (s / 86400 / 7 > 4) := by omega
  have e5 : (((s / 86400 / 7 : Nat) : Int) = 1) ↔ (s / 86400 / 7 = 1) := by omega
  have e6 : (((s / 86400 / 7 : Nat) : Int) > 1) ↔ (s / 86400 / 7 > 1) := by omega
  have e7 : (((s / 86400 : Nat) : Int) = 1) ↔ (s / 86400 = 1) := by omega
  have e8 : (((s / 86400 : Nat) : Int) > 1) ↔ (s / 86400 > 1) := by omega
  have e9 : (((s / 3600 : Nat) : Int) = 1) ↔ (s / 3600 = 1) := by omega
  have e10 : (((s / 3600 : Nat) : Int) > 1) ↔ (s / 3600 > 1) := by omega
  have e11 : (((s / 60 : Nat) : Int) = 1) ↔ (s / 60 = 1) := by omega
  have e12 : (((s / 60 : Nat) : Int) > 1) ↔ (s / 60 > 1) := by omega
  unfold date_diff dateDiffSpec
  simp only [h1, h2, h3, h4, hw, t1, t2, tofnat, e1, e2, e3, e4, e5, e6, e7, e8,
    e9, e10, e11, e12]

/-! ### Raw feed data (the `rss` crate view used by the code) -/

/-- A raw `rss::Item`: the code reads `guid()` (its `value` string),
`title()`, `link()` and `pub_date()`, all optional. -/
structure Item where
  guid : Option String
  title : Option String
  link : Option String
  pub_date : Option String
deriving DecidableEq

/-- A parsed `rss::Channel`: the code reads `title()`, `link()` and
`items()`. -/
structure Channel where
  title : String
  link : String
  items : List Item
deriving DecidableEq

/-- `FeedItem` from `src/lib.rs` lines 59-66.  Timestamps are modelled by
their instant in seconds, an `Int`. -/
structure FeedItem where
  guid : Option String
  title : String
  link : String
  pub_date : Int
  source_name : String
  source_url : String
deriving DecidableEq

/-- `FeedItem::make` from `src/lib.rs` lines 69-91, with the two chrono
parsers (`DateTime::parse_from_rfc2822` and `DateTime::from_str`) passed
in as `p1` and `p2`: they are external library code.  `Result<Self,
String>` becomes `Except String FeedItem`; the `?`-chain of `ok_or`
becomes the nested matches. -/
def FeedItem.make (p1 p2 : String → Except String Int) (item : Item)
    (source_name source_link : String) : Except String FeedItem :=
  match item.title with
  | none => Except.error "Title not found"
  | some title =>
    match item.link with
    | none => Except.error "Link not found"
    | some link =>
      match item.pub_date with
      | none => Except.error "Pub date not found"
      | some raw_pub_date =>
        match (match p1 raw_pub_date with
               | Except.ok t => Except.ok t
               | Except.error _ => p2 raw_pub_date) with
        | Except.error e => Except.error e
        | Except.ok pub_date =>
          Except.ok
            { guid := item.guid, title := title, link := link,
              pub_date := pub_date, source_name := source_name,
              source_url := source_link }

/-- `FeedItem::get_id` from `src/lib.rs` lines 94-99: the guid if present,
otherwise the pseudo guid built from title and link. -/
def FeedItem.get_id (self : FeedItem) : String :=
  match self.guid with
  | some s => s
  | none => self.title ++ "-" ++ self.link

/-- `read_feed_items` from `src/lib.rs` lines 114-125.  The first
component is the list of successfully converted items (in entry order),
the second the warning lines printed to stderr, one per failed entry (in
entry order; the ANSI colour styling of the `[WARNING]` tag is not
modelled). -/
def read_feed_items (p1 p2 : String → Except String Int) (channel : Channel) :
    List FeedItem × List String :=
  let converted := channel.items.map
    (fun item => FeedItem.make p1 p2 item channel.title channel.link)
  let failed := converted.filterMap
    (fun r => match r with | Except.error e => some e | Except.ok _ => none)
  let successful := converted.filterMap
    (fun r => match r with | Except.ok v => some v | Except.error _ => none)
  (successful, failed.map (fun err => "[WARNING]" ++ " Invalid RSS item in feed: " ++ err))

/-! ### The `show_news` pipeline from `src/main.rs` -/

/-- The `SortMode` CLI enum from `src/main.rs` lines 6-11. -/
inductive SortMode where
  | Original : SortMode
  | Desc : SortMode
  | Asc : SortMode
deriving DecidableEq

/-- The sort step of `show_news` (`src/main.rs` lines 57-65).  Rust
`Vec::sort_by` is a stable sort driven by a comparator; sorting by
comparator `c` stably is sorting stably by the boolean relation
`c a b ≠ Greater`.  For `Desc` the comparator is
`b.pub_date.cmp(&a.pub_date)`, giving `le a b = (b.pub_date ≤ a.pub_date)`;
for `Asc` it is `a.pub_date.cmp(&b.pub_date)`.  `List.mergeSort` is the
stable sort of the Lean library. -/
def sortItems (sort : SortMode) (all_items : List FeedItem) : List FeedItem :=
  match sort with
  | SortMode.Original => all_items
  | SortMode.Desc => all_items.mergeSort (fun a b => decide (b.pub_date ≤ a.pub_date))
  | SortMode.Asc => all_items.mergeSort (fun a b => decide (a.pub_date ≤ b.pub_date))

/-- The novelty/display loop of `show_news` (`src/main.rs` lines 67-74).
Returns the displayed items, each with its `already_seen` flag (which
decides the display style), and the final in-memory `previous_guids`.
An item is shown iff `!already_seen || all`, and exactly then its id is
pushed onto `previous_guids`. -/
def processItems (all : Bool) : List FeedItem → List String → List (FeedItem × Bool) × List String
  | [], previous_guids => ([], previous_guids)
  | item :: rest, previous_guids =>
    let guid := item.get_id
    let already_seen := previous_guids.contains guid
    if !already_seen || all then
      let r := processItems all rest (previous_guids ++ [guid])
      ((item, already_seen) :: r.1, r.2)
    else
      processItems all rest previous_guids

/-- The per-source fetch loop of `show_news` (`src/main.rs` lines 51-56).
Each element of `sources` is the result the external fetch layer hands
back for one subscribed outline: `some channel` on success, `none` on a
fetch/parse failure.  The code calls `.unwrap()` on that result, so a
failure panics: the whole computation yields `none`. -/
def collectItems (p1 p2 : String → Except String Int) :
    List (Option Channel) → Option (List FeedItem)
  | [] => some []
  | none :: _ => none
  | some channel :: rest =>
    (collectItems p1 p2 rest).map
      (fun tail => (read_feed_items p1 p2 channel).1 ++ tail)

/-- `show_news` from `src/main.rs` lines 37-76, between its I/O
boundaries: `previous_guids` is the record loaded from `seen.txt`, the
result is `none` if the run panics (a source failed to fetch), otherwise
the displayed items and the final record written back to `seen.txt`. -/
def show_news (p1 p2 : String → Except String Int) (sources : List (Option Channel))
    (previous_guids : List String) (all : Bool) (sort : SortMode) :
    Option (List (FeedItem × Bool) × List String) :=
  match collectItems p1 p2 sources with
  | none => none
  | some all_items => some (processItems all (sortItems sort all_items) previous_guids)

/-! ### The seen-file round trip (`seen.txt`) -/

/-- Rust `slice::join` with separator `"\n"` (`src/main.rs` line 75):
the file content written at the end of a run. -/
def joinNl : List String → String
  | [] => ""
  | [s] => s
  | s :: rest => s ++ "\n" ++ joinNl rest

/-- Char-level split on a newline, keeping empty segments:
`splitNlData ['a', newline] = [['a'], []]`. -/
def splitNlData : List Char → List (List Char)
  | [] => [[]]
  | c :: cs =>
    let r := splitNlData cs
    if c = '\n' then [] :: r
    else
      match r with
      | [] => [[c]]
      | h :: t => (c :: h) :: t

/-- Drop a final empty segment: Rust `str::lines` treats the final line
ending as optional. -/
def dropTrailingEmpty (ls : List (List Char)) : List (List Char) :=
  if ls.getLast? = some [] then ls.dropLast else ls

/-- Strip one trailing carriage return from a line, as Rust `str::lines`
does for `\r\n` endings. -/
def stripCR (l : List Char) : List Char :=
  if l.getLast? = some '\r' then l.dropLast else l

/-- Rust `str::lines` (`src/main.rs` line 48): the record loaded from the
file content at the start of a run. -/
def rustLines (s : String) : List String :=
  (dropTrailingEmpty (splitNlData s.data)).map (fun l => String.mk (stripCR l))

/-! ### Helper lemmas about the novelty/display loop -/

lemma contains_iff (l : List String) (a : String) : l.contains a = true ↔ a ∈ l := by
  simp [List.contains, List.elem_iff]

/-- The final record is the loaded record followed by the ids of the
displayed items, in display order. -/
lemma processItems_snd (all : Bool) :
    ∀ (items : List FeedItem) (prev : List String),
    (processItems all items prev).2 =
      prev ++ (processItems all items prev).1.map (fun d => d.1.get_id)
  | [], prev => by simp [processItems]
  | item :: rest, prev => by
    by_cases h : (!prev.contains item.get_id || all) = true
    · simp only [processItems, h, if_pos]
      rw [processItems_snd all rest (prev ++ [item.get_id])]
      simp
    · simp only [processItems, h, if_neg, Bool.false_eq_true, not_false_eq_true]
      exact processItems_snd all rest prev

/-- With `all = false`, the ids of the displayed items are pairwise
distinct and none of them is in the loaded record. -/
lemma processItems_false_ids :
    ∀ (items : List FeedItem) (prev : List String),
    ((processItems false items prev).1.map (fun d => d.1.get_id)).Nodup ∧
    ∀ g ∈ (processItems false items prev).1.map (fun d => d.1.get_id), g ∉ prev
  | [], prev => by simp [processItems]
  | item :: rest, prev => by
    by_cases h : (!prev.contains item.get_id || false) = true
    · have hnotmem : item.get_id ∉ prev := by
        intro hmem
        rw [(contains_iff prev item.get_id).mpr hmem] at h
        simp at h
      have ih := processItems_false_ids rest (prev ++ [item.get_id])
      simp only [processItems, h, if_pos, List.map_cons, List.nodup_cons]
      refine ⟨⟨fun hmem => ?_, ih.1⟩, fun g hg => ?_⟩
      · exact ih.2 _ hmem (by simp)
      · rcases List.mem_cons.mp hg with hg | hg
        · rw [hg]; exact hnotmem
        · intro hp
          exact ih.2 _ hg (List.mem_append_left _ hp)
    · simp only [processItems, h, if_neg, Bool.false_eq_true, not_false_eq_true]
      exact processItems_false_ids rest prev

/-- Every processed item ends up marked seen: its id is in the final
record, whether or not it was displayed. -/
lemma mem_processItems_snd (all : Bool) :
    ∀ (items : List FeedItem) (prev : List String) (item : FeedItem),
    item ∈ items → item.get_id ∈ (processItems all items prev).2
  | [], _, _, hmem => by cases hmem
  | i :: rest, prev, item, hmem => by
    by_cases h : (!prev.contains i.get_id || all) = true
    · simp only [processItems, h, if_pos]
      rcases List.mem_cons.mp hmem with heq | hmem
      · rw [heq, processItems_snd]
        simp
      · exact mem_processItems_snd all rest (prev ++ [i.get_id]) item hmem
    · have hc : prev.contains i.get_id = true := by
        rcases Bool.eq_false_or_eq_true (prev.contains i.get_id) with hc | hc
        · exact hc
        · exact absurd (by rw [hc]; simp) h
      rcases List.mem_cons.mp hmem with heq | hmem
      · have hseen : i.get_id ∈ prev := (contains_iff prev i.get_id).mp hc
        simp only [processItems, h, if_neg, Bool.false_eq_true, not_false_eq_true]
        rw [heq, processItems_snd]
        exact List.mem_append_left _ hseen
      · simp only [processItems, h, if_neg, Bool.false_eq_true, not_false_eq_true]
        exact mem_processItems_snd all rest prev item hmem

/-- With `all = false`, a batch of items all of whose ids are already in
the record displays nothing and leaves the record unchanged. -/
lemma processItems_all_seen :
    ∀ (items : List FeedItem) (prev : List String),
    (∀ item ∈ items, item.get_id ∈ prev) → processItems false items prev = ([], prev)
  | [], prev, _ => by simp [processItems]
  | item :: rest, prev, h => by
    have hc : prev.contains item.get_id = true :=
      (contains_iff prev item.get_id).mpr (h item (by simp))
    simp only [processItems, hc, Bool.not_true, Bool.false_or, Bool.false_eq_true,
      if_neg, not_false_eq_true]
    exact processItems_all_seen rest prev (fun i hi => h i (by simp [hi]))

/-- With `all = true` every item is displayed and every id is pushed, the
already-seen ones included. -/
lemma processItems_true_snd :
    ∀ (items : List FeedItem) (prev : List String),
    (processItems true items prev).2 = prev ++ items.map (fun i => i.get_id)
  | [], prev => by simp [processItems]
  | item :: rest, prev => by
    simp only [processItems, Bool.or_true, if_pos]
    rw [processItems_true_snd rest (prev ++ [item.get_id])]
    simp

/-- Displayed items are a subsequence of the processed sequence. -/
lemma processItems_fst_sublist (all : Bool) :
    ∀ (items : List FeedItem) (prev : List String),
    List.Sublist ((processItems all items prev).1.map (fun d => d.1)) items
  | [], prev => by simp [processItems]
  | item :: rest, prev => by
    by_cases h : (!prev.contains item.get_id || all) = true
    · simp only [processItems, h, if_pos, List.map_cons]
      exact List.Sublist.cons₂ _ (processItems_fst_sublist all rest (prev ++ [item.get_id]))
    · simp only [processItems, h, if_neg, Bool.false_eq_true, not_false_eq_true]
      exact List.Sublist.cons _ (processItems_fst_sublist all rest prev)

/-! ### Round-trip lemmas for the seen file -/

/-- An identifier that survives the newline-joined file round trip:
nonempty, no newline, no carriage return. -/
def goodId (id : String) : Prop :=
  id.data ≠ [] ∧ '\n' ∉ id.data ∧ '\r' ∉ id.data

instance : DecidablePred goodId := fun id => by
  unfold goodId; infer_instance

lemma splitNlData_ne_nil : ∀ (cs : List Char), splitNlData cs ≠ []
  | [] => by simp [splitNlData]
  | c :: cs => by
    simp only [splitNlData]
    by_cases h : c = '\n'
    · simp [h]
    · rcases hr : splitNlData cs with _ | ⟨hd, tl⟩ <;> simp [h, hr]

lemma splitNlData_no_nl : ∀ (cs : List Char), '\n' ∉ cs → splitNlData cs = [cs]
  | [], _ => rfl
  | c :: cs, h => by
    have hc : ¬ c = '\n' := fun e => h (by rw [e]; exact List.mem_cons_self _ _)
    simp only [splitNlData, if_neg hc]
    rw [splitNlData_no_nl cs (fun m => h (List.mem_cons_of_mem _ m))]

lemma splitNlData_append :
    ∀ (xs ys : List Char), '\n' ∉ xs →
    splitNlData (xs ++ '\n' :: ys) = xs :: splitNlData ys
  | [], ys, _ => by simp [splitNlData]
  | x :: xs, ys, h => by
    have hx : ¬ x = '\n' := fun e => h (by rw [e]; exact List.mem_cons_self _ _)
    simp only [List.cons_append, splitNlData, if_neg hx, List.append_eq]
    rw [splitNlData_append xs ys (fun m => h (List.mem_cons_of_mem _ m))]

lemma dropTrailingEmpty_cons (x : List Char) (L : List (List Char)) (h : L ≠ []) :
    dropTrailingEmpty (x :: L) = x :: dropTrailingEmpty L := by
  unfold dropTrailingEmpty
  rcases L with _ | ⟨y, ys⟩
  · exact absurd rfl h
  · rw [List.getLast?_cons_cons, List.dropLast_cons₂]
    by_cases hy : (y :: ys).getLast? = some []
    · rw [if_pos hy, if_pos hy]
    · rw [if_neg hy, if_neg hy]

lemma stripCR_no_cr (l : List Char) (h : '\r' ∉ l) : stripCR l = l := by
  unfold stripCR
  rw [if_neg]
  intro hlast
  exact h (List.mem_of_getLast?_eq_some hlast)

/-- Saving the in-memory record with `join("\n")` and loading it back with
`lines()` restores it, provided every identifier is nonempty and free of
newline and carriage-return characters. -/
lemma rustLines_joinNl :
    ∀ (ids : List String), (∀ id ∈ ids, goodId id) → rustLines (joinNl ids) = ids
  | [], _ => rfl
  | [s], h => by
    have hs := h s (by simp)
    show rustLines (joinNl [s]) = [s]
    have hj : joinNl [s] = s := rfl
    rw [hj]
    unfold rustLines
    rw [splitNlData_no_nl s.data hs.2.1]
    unfold dropTrailingEmpty
    rw [if_neg (by simp [hs.1])]
    simp only [List.map_cons, List.map_nil]
    rw [stripCR_no_cr _ hs.2.2]
  | s :: s2 :: rest, h => by
    have hs := h s (by simp)
    have ih := rustLines_joinNl (s2 :: rest) (fun i hi => h i (by simp [hi]))
    have hj : joinNl (s :: s2 :: rest) = s ++ "\n" ++ joinNl (s2 :: rest) := rfl
    rw [hj]
    unfold rustLines
    have hdata : (s ++ "\n" ++ joinNl (s2 :: rest)).data =
        s.data ++ '\n' :: (joinNl (s2 :: rest)).data := by
      simp [String.data_append]
    rw [hdata, splitNlData_append s.data _ hs.2.1,
      dropTrailingEmpty_cons _ _ (splitNlData_ne_nil _)]
    simp only [List.map_cons]
    rw [stripCR_no_cr _ hs.2.2]
    unfold rustLines at ih
    rw [ih]

/-! ### Concrete fixtures for witnesses and counterexamples -/

/-- A concrete stand-in for `DateTime::parse_from_rfc2822`: accepts
exactly the string "d". -/
def p1c : String → Except String Int :=
  fun s => if s = "d" then Except.ok 0 else Except.error "not rfc2822"

/-- A concrete stand-in for `DateTime::from_str`: accepts exactly the
string "e". -/
def p2c : String → Except String Int :=
  fun s => if s = "e" then Except.ok 7 else Except.error "not a timestamp"

def itemGuidA : Item :=
  { guid := some "a", title := some "t", link := some "l", pub_date := some "d" }

def itemGuidA2 : Item :=
  { guid := some "a", title := some "t2", link := some "l2", pub_date := some "d" }

def itemEmptyGuid : Item :=
  { guid := some "", title := some "t", link := some "l", pub_date := some "d" }

def itemNoTitle : Item :=
  { guid := none, title := none, link := some "l", pub_date := some "d" }

def itemEmptyTitle : Item :=
  { guid := none, title := some "", link := some "", pub_date := some "d" }

def chanA : Channel := { title := "src", link := "http", items := [itemGuidA] }

def chanEmptyGuid : Channel := { title := "src", link := "http", items := [itemEmptyGuid] }

def fiA : FeedItem :=
  { guid := some "a", title := "t", link := "l", pub_date := 0,
    source_name := "src", source_url := "http" }

def fiA2 : FeedItem :=
  { guid := some "a", title := "t2", link := "l2", pub_date := 0,
    source_name := "src", source_url := "http" }

def fiEmptyGuid : FeedItem :=
  { guid := some "", title := "t", link := "l", pub_date := 0,
    source_name := "src", source_url := "http" }

/-! ### Claims -/

/-- Claim C1 as frozen is false on the code: with `showAll = true` an
item whose identifier is already in the loaded record is displayed and
its identifier is pushed again.  Here the loaded record is `["a"]`, the
single item's identifier `"a"` is already present, and the run ends with
the record `["a", "a"]` — a re-append and duplicate growth. -/
theorem c1_counterexample :
    fiA.get_id ∈ (["a"] : List String) ∧
    processItems true [fiA] ["a"] = ([(fiA, true)], ["a", "a"]) := by
  constructor
  · decide
  · decide

/-- Claim C1, amended: seen-tracking is tied to display, not independent
of `showAll`.  With `showAll = false` the final record is the loaded
record followed by the displayed ids, those ids are pairwise distinct,
none was already in the loaded record, and every processed item whose id
was absent gets appended (exactly once, by distinctness).  With
`showAll = true` every processed item's id is pushed, so identifiers
already present are re-appended. -/
theorem c1_seen_tracking :
    ∀ (items : List FeedItem) (prev : List String),
    ((processItems false items prev).2 =
        prev ++ (processItems false items prev).1.map (fun d => d.1.get_id) ∧
      ((processItems false items prev).1.map (fun d => d.1.get_id)).Nodup ∧
      (∀ g ∈ (processItems false items prev).1.map (fun d => d.1.get_id), g ∉ prev) ∧
      (∀ item ∈ items, item.get_id ∉ prev →
        item.get_id ∈ (processItems false items prev).1.map (fun d => d.1.get_id))) ∧
    (processItems true items prev).2 = prev ++ items.map (fun i => i.get_id) := by
  intro items prev
  refine ⟨⟨processItems_snd false items prev, (processItems_false_ids items prev).1,
    (processItems_false_ids items prev).2, fun item hmem habs => ?_⟩,
    processItems_true_snd items prev⟩
  have h := mem_processItems_snd false items prev item hmem
  rw [processItems_snd false items prev] at h
  rcases List.mem_append.mp h with h | h
  · exact absurd h habs
  · exact h

/-- Witness for C1: on the concrete one-item run from an empty record,
the absent identifier is indeed appended. -/
theorem c1_witness :
    fiA.get_id ∈ (processItems false [fiA] []).1.map (fun d => d.1.get_id) :=
  (c1_seen_tracking [fiA] []).1.2.2.2 fiA (by decide) (by decide)

/-- Claim C3 as frozen is false on the code: `show_news` calls
`.unwrap()` on each fetch result, so one failing source aborts the whole
run.  Here the first source yields a perfectly valid item, the second
source fails; the run panics, displays nothing and saves nothing, even
though `read_feed_items` would have produced the first source's item. -/
theorem c3_counterexample :
    show_news p1c p2c [some chanA, none] [] false SortMode.Original = none ∧
    read_feed_items p1c p2c chanA = ([fiA], []) := by
  constructor
  · decide
  · decide

/-- Claim C3, amended: a source whose fetch or parse fails entirely is
not skipped; the `.unwrap()` panics, so the whole run aborts: no item of
any source is displayed and the seen record is not saved. -/
theorem c3_failing_source_aborts :
    ∀ (p1 p2 : String → Except String Int) (sources : List (Option Channel))
      (previous_guids : List String) (all : Bool) (sort : SortMode),
    none ∈ sources →
    show_news p1 p2 sources previous_guids all sort = none := by
  intro p1 p2 sources prev all sort hmem
  have hnone : ∀ (srcs : List (Option Channel)), none ∈ srcs →
      collectItems p1 p2 srcs = none := by
    intro srcs
    induction srcs with
    | nil => intro h; cases h
    | cons hd tl ih =>
      intro h
      rcases hd with _ | c
      · rfl
      · rcases List.mem_cons.mp h with heq | htl
        · cases heq
        · show (collectItems p1 p2 tl).map _ = none
          rw [ih htl]
          rfl
  show (match collectItems p1 p2 sources with
    | none => none
    | some all_items => some (processItems all (sortItems sort all_items) prev)) = none
  rw [hnone sources hmem]

/-- Witness for C3: the concrete aborted run. -/
theorem c3_witness :
    show_news p1c p2c [none] ["x"] true SortMode.Desc = none :=
  c3_failing_source_aborts p1c p2c [none] ["x"] true SortMode.Desc (by decide)

/-- Claim C10: within a completed run the record only grows: the saved
record is the loaded record followed by the ids of the displayed items;
nothing is removed or reordered. -/
theorem c10_record_only_grows :
    ∀ (p1 p2 : String → Except String Int) (sources : List (Option Channel))
      (previous_guids : List String) (all : Bool) (sort : SortMode)
      (displayed : List (FeedItem × Bool)) (saved : List String),
    show_news p1 p2 sources previous_guids all sort = some (displayed, saved) →
    saved = previous_guids ++ displayed.map (fun d => d.1.get_id) := by
  intro p1 p2 sources prev all sort displayed saved h
  unfold show_news at h
  rcases hc : collectItems p1 p2 sources with _ | items
  · rw [hc] at h; cases h
  · rw [hc] at h
    have h2 : processItems all (sortItems sort items) prev = (displayed, saved) :=
      Option.some.inj h
    have := processItems_snd all (sortItems sort items) prev
    rw [h2] at this
    exact this

/-- Witness for C10: concrete run from the loaded record `["z"]`. -/
theorem c10_witness :
    (["z", "a"] : List String) = ["z"] ++ [(fiA, false)].map (fun d => d.1.get_id) :=
  c10_record_only_grows p1c p2c [some chanA] ["z"] false SortMode.Original
    [(fiA, false)] ["z", "a"] (by decide)

/-- Claim C2 as frozen is false on the code: the persistence round trip
`join("\n")` / `lines()` does not preserve every identifier.  An item
with an explicit empty guid is displayed in the first run and the record
`[""]` is saved, but the saved file content is the empty string, which
loads back as the empty record, so the second run displays the same item
again instead of nothing. -/
theorem c2_counterexample :
    show_news p1c p2c [some chanEmptyGuid] [] false SortMode.Original =
      some ([(fiEmptyGuid, false)], [""]) ∧
    rustLines (joinNl [""]) = [] ∧
    show_news p1c p2c [some chanEmptyGuid] (rustLines (joinNl [""])) false
        SortMode.Original =
      some ([(fiEmptyGuid, false)], [""]) := by
  refine ⟨by decide, by decide, by decide⟩

/-- Claim C2, amended: running `show_news` twice with the same sources
and `showAll = false` is idempotent with respect to display, provided
every identifier in the record saved by the first run survives the
newline-joined persistence round trip (is nonempty and free of newline
and carriage-return characters): the second run, loading the saved
record, displays no items and leaves the record unchanged. -/
theorem c2_second_run_shows_nothing :
    ∀ (p1 p2 : String → Except String Int) (sources : List (Option Channel))
      (previous_guids : List String) (sort : SortMode)
      (d1 : List (FeedItem × Bool)) (r1 : List String),
    show_news p1 p2 sources previous_guids false sort = some (d1, r1) →
    (∀ id ∈ r1, goodId id) →
    show_news p1 p2 sources (rustLines (joinNl r1)) false sort = some ([], r1) := by
  intro p1 p2 sources prev sort d1 r1 h hgood
  unfold show_news at h ⊢
  rcases hc : collectItems p1 p2 sources with _ | items
  · rw [hc] at h; cases h
  · rw [hc] at h
    have h2 : processItems false (sortItems sort items) prev = (d1, r1) :=
      Option.some.inj h
    have hmem : ∀ item ∈ sortItems sort items, item.get_id ∈ r1 := by
      intro item hmem
      have := mem_processItems_snd false (sortItems sort items) prev item hmem
      rw [h2] at this
      exact this
    rw [rustLines_joinNl r1 hgood]
    show some (processItems false (sortItems sort items) r1) = some ([], r1)
    rw [processItems_all_seen (sortItems sort items) r1 hmem]

/-- Witness for C2: the concrete one-item run with a well-behaved
identifier; the second run shows nothing. -/
theorem c2_witness :
    show_news p1c p2c [some chanA] (rustLines (joinNl ["a"])) false
      SortMode.Original = some ([], ["a"]) :=
  c2_second_run_shows_nothing p1c p2c [some chanA] [] SortMode.Original
    [(fiA, false)] ["a"] (by decide) (by decide)

/-- Claim C5: the canonical identifier is the explicit guid when present
and the string `title-link` otherwise; hence equal explicit guids give
equal identifiers whatever the titles and links, missing guids with equal
title and link give equal identifiers, and with `showAll = false` the
displayed items of a run have pairwise distinct identifiers (the novelty
check deduplicates). -/
theorem c5_identifier_stability :
    (∀ (fi : FeedItem) (g : String), fi.guid = some g → fi.get_id = g) ∧
    (∀ (fi : FeedItem), fi.guid = none → fi.get_id = fi.title ++ "-" ++ fi.link) ∧
    (∀ (f1 f2 : FeedItem) (g : String), f1.guid = some g → f2.guid = some g →
      f1.get_id = f2.get_id) ∧
    (∀ (f1 f2 : FeedItem), f1.guid = none → f2.guid = none → f1.title = f2.title →
      f1.link = f2.link → f1.get_id = f2.get_id) ∧
    (∀ (items : List FeedItem) (prev : List String),
      ((processItems false items prev).1.map (fun d => d.1.get_id)).Nodup) := by
  have hsome : ∀ (fi : FeedItem) (g : String), fi.guid = some g → fi.get_id = g := by
    intro fi g h
    unfold FeedItem.get_id
    rw [h]
  have hnone : ∀ (fi : FeedItem), fi.guid = none →
      fi.get_id = fi.title ++ "-" ++ fi.link := by
    intro fi h
    unfold FeedItem.get_id
    rw [h]
  refine ⟨hsome, hnone, fun f1 f2 g h1 h2 => ?_, fun f1 f2 h1 h2 ht hl => ?_,
    fun items prev => (processItems_false_ids items prev).1⟩
  · rw [hsome f1 g h1, hsome f2 g h2]
  · rw [hnone f1 h1, hnone f2 h2, ht, hl]

/-- Witness for C5: two concrete items with the same explicit guid but
different titles and links have the same identifier. -/
theorem c5_witness : fiA.get_id = fiA2.get_id :=
  c5_identifier_stability.2.2.1 fiA fiA2 "a" (by decide) (by decide)

/-! ### Comparator facts for the sort step -/

/-- The boolean relation realised by the `Desc` comparator
`b.pub_date.cmp(&a.pub_date)`. -/
def leDesc (a b : FeedItem) : Bool := decide (b.pub_date ≤ a.pub_date)

/-- The boolean relation realised by the `Asc` comparator
`a.pub_date.cmp(&b.pub_date)`. -/
def leAsc (a b : FeedItem) : Bool := decide (a.pub_date ≤ b.pub_date)

lemma sortItems_desc_eq (l : List FeedItem) :
    sortItems SortMode.Desc l = l.mergeSort leDesc := rfl

lemma sortItems_asc_eq (l : List FeedItem) :
    sortItems SortMode.Asc l = l.mergeSort leAsc := rfl

lemma leDesc_trans : ∀ (a b c : FeedItem), leDesc a b → leDesc b c → leDesc a c := by
  intro a b c hab hbc
  unfold leDesc at *
  simp only [decide_eq_true_eq] at *
  exact le_trans hbc hab

lemma leDesc_total : ∀ (a b : FeedItem), leDesc a b || leDesc b a := by
  intro a b
  unfold leDesc
  rcases le_total a.pub_date b.pub_date with h | h <;> simp [h]

lemma leAsc_trans : ∀ (a b c : FeedItem), leAsc a b → leAsc b c → leAsc a c := by
  intro a b c hab hbc
  unfold leAsc at *
  simp only [decide_eq_true_eq] at *
  exact le_trans hab hbc

lemma leAsc_total : ∀ (a b : FeedItem), leAsc a b || leAsc b a := by
  intro a b
  unfold leAsc
  rcases le_total a.pub_date b.pub_date with h | h <;> simp [h]

/-- Stability of the sort step, phrased through filtering by a timestamp:
the items carrying any fixed timestamp appear in the sorted output in
exactly their input order. -/
lemma filter_mergeSort_key (le : FeedItem → FeedItem → Bool)
    (htrans : ∀ (a b c : FeedItem), le a b → le b c → le a c)
    (htotal : ∀ (a b : FeedItem), le a b || le b a)
    (hkey : ∀ (t : Int) (a b : FeedItem), a.pub_date = t → b.pub_date = t → le a b = true) :
    ∀ (t : Int) (l : List FeedItem),
    (l.mergeSort le).filter (fun x => x.pub_date == t) =
      l.filter (fun x => x.pub_date == t) := by
  intro t l
  have hallp : ∀ a ∈ l.filter (fun x : FeedItem => x.pub_date == t),
      (fun x : FeedItem => x.pub_date == t) a = true :=
    fun a ha => (List.mem_filter.mp ha).2
  have hpair : (l.filter (fun x : FeedItem => x.pub_date == t)).Pairwise
      (fun a b => le a b = true) := by
    apply List.pairwise_of_forall_mem_list
    intro a ha b hb
    exact hkey t a b (eq_of_beq (hallp a ha)) (eq_of_beq (hallp b hb))
  have hsub : List.Sublist (l.filter (fun x : FeedItem => x.pub_date == t)) (l.mergeSort le) :=
    List.sublist_mergeSort htrans htotal hpair (List.filter_sublist l)
  have hsub2 : List.Sublist (l.filter (fun x : FeedItem => x.pub_date == t))
      ((l.mergeSort le).filter (fun x : FeedItem => x.pub_date == t)) := by
    have h2 := List.Sublist.filter (fun x : FeedItem => x.pub_date == t) hsub
    rwa [List.filter_eq_self.mpr hallp] at h2
  have hperm : List.Perm ((l.mergeSort le).filter (fun x : FeedItem => x.pub_date == t))
      (l.filter (fun x : FeedItem => x.pub_date == t)) :=
    (List.mergeSort_perm l le).filter _
  exact (hsub2.eq_of_length hperm.length_eq.symm).symm

/-- Claim C6: `Original` keeps the arrival order, `Desc` yields
non-increasing and `Asc` non-decreasing timestamps (also on the items
actually displayed), every mode permutes the input, the sort is stable
(items with any fixed timestamp keep their input order), and the
displayed items are a subsequence of the sorted sequence. -/
theorem c6_ordering :
    ∀ (l : List FeedItem) (prev : List String) (all : Bool),
    sortItems SortMode.Original l = l ∧
    (sortItems SortMode.Desc l).Pairwise (fun a b => b.pub_date ≤ a.pub_date) ∧
    (sortItems SortMode.Asc l).Pairwise (fun a b => a.pub_date ≤ b.pub_date) ∧
    (∀ (sort : SortMode), List.Perm (sortItems sort l) l) ∧
    (∀ (sort : SortMode) (t : Int),
      (sortItems sort l).filter (fun x => x.pub_date == t) =
        l.filter (fun x => x.pub_date == t)) ∧
    (∀ (sort : SortMode),
      List.Sublist ((processItems all (sortItems sort l) prev).1.map (fun d => d.1))
        (sortItems sort l)) ∧
    ((processItems all (sortItems SortMode.Desc l) prev).1.map
        (fun d => d.1.pub_date)).Pairwise (fun a b => b ≤ a) ∧
    ((processItems all (sortItems SortMode.Asc l) prev).1.map
        (fun d => d.1.pub_date)).Pairwise (fun a b => a ≤ b) := by
  intro l prev all
  have hdescB : (l.mergeSort leDesc).Pairwise (fun a b => leDesc a b = true) :=
    List.sorted_mergeSort leDesc_trans leDesc_total l
  have hascB : (l.mergeSort leAsc).Pairwise (fun a b => leAsc a b = true) :=
    List.sorted_mergeSort leAsc_trans leAsc_total l
  have hdesc : (sortItems SortMode.Desc l).Pairwise (fun a b => b.pub_date ≤ a.pub_date) := by
    rw [sortItems_desc_eq]
    exact hdescB.imp (fun h => of_decide_eq_true h)
  have hasc : (sortItems SortMode.Asc l).Pairwise (fun a b => a.pub_date ≤ b.pub_date) := by
    rw [sortItems_asc_eq]
    exact hascB.imp (fun h => of_decide_eq_true h)
  have hsubl : ∀ (sort : SortMode),
      List.Sublist ((processItems all (sortItems sort l) prev).1.map (fun d => d.1))
        (sortItems sort l) :=
    fun sort => processItems_fst_sublist all (sortItems sort l) prev
  refine ⟨rfl, hdesc, hasc, fun sort => ?_, fun sort t => ?_, hsubl, ?_, ?_⟩
  · rcases sort with _ | _ | _
    · exact List.Perm.refl l
    · exact List.mergeSort_perm l leDesc
    · exact List.mergeSort_perm l leAsc
  · rcases sort with _ | _ | _
    · rfl
    · exact filter_mergeSort_key leDesc leDesc_trans leDesc_total
        (fun s a b ha hb => by unfold leDesc; rw [ha, hb]; simp) t l
    · exact filter_mergeSort_key leAsc leAsc_trans leAsc_total
        (fun s a b ha hb => by unfold leAsc; rw [ha, hb]; simp) t l
  · have hp : List.Pairwise (fun a b : FeedItem => b.pub_date ≤ a.pub_date)
        ((processItems all (sortItems SortMode.Desc l) prev).1.map (fun d => d.1)) :=
      List.Pairwise.sublist (hsubl SortMode.Desc) hdesc
    have hp2 : List.Pairwise (fun a b : FeedItem × Bool => b.1.pub_date ≤ a.1.pub_date)
        (processItems all (sortItems SortMode.Desc l) prev).1 :=
      List.Pairwise.of_map (fun d : FeedItem × Bool => d.1) (fun a b h => h) hp
    exact List.pairwise_map.mpr hp2
  · have hp : List.Pairwise (fun a b : FeedItem => a.pub_date ≤ b.pub_date)
        ((processItems all (sortItems SortMode.Asc l) prev).1.map (fun d => d.1)) :=
      List.Pairwise.sublist (hsubl SortMode.Asc) hasc
    have hp2 : List.Pairwise (fun a b : FeedItem × Bool => a.1.pub_date ≤ b.1.pub_date)
        (processItems all (sortItems SortMode.Asc l) prev).1 :=
      List.Pairwise.of_map (fun d : FeedItem × Bool => d.1) (fun a b h => h) hp
    exact List.pairwise_map.mpr hp2

/-- Claim C7: with title and link present, normalization tries the
primary parser first; it succeeds with the first successful parse's
timestamp, falls back to the secondary parser only when the primary
fails, and fails exactly when the publish-date string is absent or both
parses fail. -/
theorem c7_date_parse_fallback :
    ∀ (p1 p2 : String → Except String Int) (item : Item) (sn sl t l : String),
    item.title = some t → item.link = some l →
    ((item.pub_date = none →
        FeedItem.make p1 p2 item sn sl = Except.error "Pub date not found") ∧
     (∀ (raw : String) (v : Int), item.pub_date = some raw → p1 raw = Except.ok v →
        FeedItem.make p1 p2 item sn sl = Except.ok
          { guid := item.guid, title := t, link := l, pub_date := v,
            source_name := sn, source_url := sl }) ∧
     (∀ (raw e : String) (v : Int), item.pub_date = some raw →
        p1 raw = Except.error e → p2 raw = Except.ok v →
        FeedItem.make p1 p2 item sn sl = Except.ok
          { guid := item.guid, title := t, link := l, pub_date := v,
            source_name := sn, source_url := sl }) ∧
     (∀ (raw e1 e2 : String), item.pub_date = some raw →
        p1 raw = Except.error e1 → p2 raw = Except.error e2 →
        FeedItem.make p1 p2 item sn sl = Except.error e2)) := by
  intro p1 p2 item sn sl t l ht hl
  unfold FeedItem.make
  refine ⟨fun hd => by simp only [ht, hl, hd],
    fun raw v hd hp1 => by simp only [ht, hl, hd, hp1],
    fun raw e v hd hp1 hp2 => by simp only [ht, hl, hd, hp1, hp2],
    fun raw e1 e2 hd hp1 hp2 => by simp only [ht, hl, hd, hp1, hp2]⟩

/-- Witness for C7: the fixture item parses with the primary parser. -/
theorem c7_witness :
    FeedItem.make p1c p2c itemGuidA "src" "http" = Except.ok fiA :=
  (c7_date_parse_fallback p1c p2c itemGuidA "src" "http" "t" "l" rfl rfl).2.1
    "d" 0 rfl rfl

lemma read_feed_items_append (p1 p2 : String → Except String Int)
    (ct cl : String) (l1 l2 : List Item) :
    read_feed_items p1 p2 { title := ct, link := cl, items := l1 ++ l2 } =
      ((read_feed_items p1 p2 { title := ct, link := cl, items := l1 }).1 ++
        (read_feed_items p1 p2 { title := ct, link := cl, items := l2 }).1,
       (read_feed_items p1 p2 { title := ct, link := cl, items := l1 }).2 ++
        (read_feed_items p1 p2 { title := ct, link := cl, items := l2 }).2) := by
  unfold read_feed_items
  simp [List.filterMap_append]

lemma read_feed_items_error (p1 p2 : String → Except String Int)
    (ct cl : String) (bad : Item) (reason : String)
    (h : FeedItem.make p1 p2 bad ct cl = Except.error reason) :
    read_feed_items p1 p2 { title := ct, link := cl, items := [bad] } =
      ([], ["[WARNING]" ++ " Invalid RSS item in feed: " ++ reason]) := by
  unfold read_feed_items
  simp [h]

/-- Claim C8 as frozen is false on the code: the warning line reads
`[WARNING] Invalid RSS item in feed: reason`, not
`[WARNING] Invalid feed item in feed: reason`. -/
theorem c8_counterexample :
    (read_feed_items p1c p2c
        { title := "src", link := "http", items := [itemNoTitle] }).2 =
      ["[WARNING]" ++ " Invalid RSS item in feed: " ++ "Title not found"] ∧
    ("[WARNING]" ++ " Invalid RSS item in feed: " ++ "Title not found" ≠
     "[WARNING]" ++ " Invalid feed item in feed: " ++ "Title not found") := by
  refine ⟨by decide, by decide⟩

/-- Claim C8, amended: a raw entry missing its title or its link fails
normalization (title checked before link), yields zero FeedItems and
exactly one warning line of the form
`[WARNING] Invalid RSS item in feed: reason` on the error stream, and the
other entries of the batch are unaffected and keep their order. -/
theorem c8_dropped_entry :
    ∀ (p1 p2 : String → Except String Int) (ct cl : String)
      (pre post : List Item) (bad : Item),
    bad.title = none ∨ bad.link = none →
    FeedItem.make p1 p2 bad ct cl =
      Except.error (if bad.title = none then "Title not found" else "Link not found") ∧
    read_feed_items p1 p2 { title := ct, link := cl, items := pre ++ bad :: post } =
      ((read_feed_items p1 p2 { title := ct, link := cl, items := pre }).1 ++
        (read_feed_items p1 p2 { title := ct, link := cl, items := post }).1,
       (read_feed_items p1 p2 { title := ct, link := cl, items := pre }).2 ++
        ("[WARNING]" ++ " Invalid RSS item in feed: " ++
            (if bad.title = none then "Title not found" else "Link not found")) ::
          (read_feed_items p1 p2 { title := ct, link := cl, items := post }).2) := by
  intro p1 p2 ct cl pre post bad hbad
  have herr : FeedItem.make p1 p2 bad ct cl =
      Except.error (if bad.title = none then "Title not found" else "Link not found") := by
    rcases hbt : bad.title with _ | bt
    · unfold FeedItem.make
      simp only [hbt, if_pos]
    · rcases hbl : bad.link with _ | bl
      · unfold FeedItem.make
        simp only [hbt, hbl]
        simp
      · rcases hbad with h | h
        · rw [hbt] at h; cases h
        · rw [hbl] at h; cases h
  refine ⟨herr, ?_⟩
  rw [show pre ++ bad :: post = pre ++ ([bad] ++ post) from rfl,
    read_feed_items_append p1 p2 ct cl pre ([bad] ++ post),
    read_feed_items_append p1 p2 ct cl [bad] post,
    read_feed_items_error p1 p2 ct cl bad _ herr]
  simp

/-- Witness for C8: concrete batch with a title-less entry followed by a
valid entry; the valid entry survives untouched. -/
theorem c8_witness :
    read_feed_items p1c p2c
        { title := "src", link := "http", items := [] ++ itemNoTitle :: [itemGuidA] } =
      ((read_feed_items p1c p2c { title := "src", link := "http", items := [] }).1 ++
        (read_feed_items p1c p2c { title := "src", link := "http", items := [itemGuidA] }).1,
       (read_feed_items p1c p2c { title := "src", link := "http", items := [] }).2 ++
        ("[WARNING]" ++ " Invalid RSS item in feed: " ++
            (if itemNoTitle.title = none then "Title not found" else "Link not found")) ::
          (read_feed_items p1c p2c { title := "src", link := "http", items := [itemGuidA] }).2) :=
  (c8_dropped_entry p1c p2c "src" "http" [] [itemGuidA] itemNoTitle (Or.inl rfl)).2

/-- Claim C9 as frozen is false on the code: `FeedItem::make` only checks
that title and link are present, not that they are nonempty, so an entry
with empty title and link constructs a FeedItem with empty title and
link. -/
theorem c9_counterexample :
    FeedItem.make p1c p2c itemEmptyTitle "src" "http" =
      Except.ok
        { guid := none, title := "", link := "", pub_date := 0,
          source_name := "src", source_url := "http" } := rfl

/-- Claim C9, amended: every FeedItem that normalization constructs
carries exactly the raw entry's title, link and guid (title and link
present but possibly empty), the given source metadata, and the timestamp
of the first successful parse of the publish-date string; the model is
pure, so a constructed item is never mutated. -/
theorem c9_construction :
    ∀ (p1 p2 : String → Except String Int) (item : Item) (sn su : String)
      (fi : FeedItem),
    FeedItem.make p1 p2 item sn su = Except.ok fi →
    item.title = some fi.title ∧ item.link = some fi.link ∧ fi.guid = item.guid ∧
    fi.source_name = sn ∧ fi.source_url = su ∧
    ∃ (raw : String), item.pub_date = some raw ∧
      (p1 raw = Except.ok fi.pub_date ∨
       (∃ (e : String), p1 raw = Except.error e ∧ p2 raw = Except.ok fi.pub_date)) := by
  intro p1 p2 item sn su fi h
  unfold FeedItem.make at h
  rcases ht : item.title with _ | t
  · rw [ht] at h; cases h
  · rcases hl : item.link with _ | l
    · rw [ht, hl] at h; cases h
    · rcases hd : item.pub_date with _ | raw
      · rw [ht, hl, hd] at h; cases h
      · rcases hp1 : p1 raw with e1 | v1
        · rcases hp2 : p2 raw with e2 | v2
          · simp only [ht, hl, hd, hp1, hp2] at h
            cases h
          · simp only [ht, hl, hd, hp1, hp2] at h
            injection h with h2
            subst h2
            exact ⟨rfl, rfl, rfl, rfl, rfl, raw, rfl, Or.inr ⟨e1, hp1, hp2⟩⟩
        · simp only [ht, hl, hd, hp1] at h
          injection h with h2
          subst h2
          exact ⟨rfl, rfl, rfl, rfl, rfl, raw, rfl, Or.inl hp1⟩

/-- Witness for C9: the constructed fixture item carries exactly the raw
fields. -/
theorem c9_witness :
    itemGuidA.title = some fiA.title ∧ itemGuidA.link = some fiA.link :=
  ⟨(c9_construction p1c p2c itemGuidA "src" "http" fiA rfl).1,
   (c9_construction p1c p2c itemGuidA "src" "http" fiA rfl).2.1⟩

end Fdr
